import Mathlib

/-!
Shallow embedding of `src/max/pipelines/context.py`: the `TextContext`
sequence-state object of the pipeline inference server (token buffer with
chunked capacity, start/active/end index window, completion-delivery window,
log-probability ledger, grammar-matcher binding) and the
`TextAndVisionContext` extension.

Python integers are modelled as `Int`; the token buffer (a 1-D numpy array)
as `List Int`; the log-probability ledger (a Python `dict[int, ...]`) as an
association list with at most one binding per key; the optional external
grammar matcher as the list of tokens it has accepted so far (the source only
feeds it tokens and asserts acceptance).
-/

set_option maxHeartbeats 1000000
set_option maxRecDepth 100000

/-- Fixed chunk size (`CHUNK_SIZE = 128`) used for capacity rounding and
buffer growth. -/
def CHUNK_SIZE : Nat := 128

/-- Opaque log-probability record attached to a buffer position. The source
stores and returns these values without ever inspecting them, so they are
modelled as plain integers. -/
abbrev LogProbabilities := Int

/-- Clamp an integer slice endpoint to a position in a buffer of length
`len`, following Python semantics: a negative endpoint counts from the end of
the buffer, and out-of-range endpoints clamp to the valid range. -/
def pyIx (len : Nat) (i : Int) : Nat :=
  if i < 0 then ((len : Int) + i).toNat else min i.toNat len

/-- Python/numpy slice `l[a:b]` with unit step. -/
def pySlice (l : List Int) (a b : Int) : List Int :=
  (l.take (pyIx l.length b)).drop (pyIx l.length a)

/-- Read `l[i]` with numpy integer-index semantics: a negative index counts
from the end of the buffer. An out-of-range index raises in numpy; that case
is mapped to `0` here and is unreachable for contexts satisfying `CtxInv`. -/
def npGetI (l : List Int) (i : Int) : Int :=
  let j : Int := if i < 0 then (l.length : Int) + i else i
  l.getD j.toNat 0

/-- Write `l[i] = v` with numpy integer-index semantics: a negative index
counts from the end of the buffer. An out-of-range index raises in numpy;
that case leaves the buffer unchanged here and is unreachable for contexts
satisfying `CtxInv`. -/
def npSetI (l : List Int) (i : Int) (v : Int) : List Int :=
  let j : Int := if i < 0 then (l.length : Int) + i else i
  if 0 ≤ j ∧ j < (l.length : Int) then l.set j.toNat v else l

/-- Model of `np.resize l n` for a 1-D array: the data of `l` is repeated
cyclically to fill the new array of length `n` (truncating when `n` is
smaller); resizing an empty array fills with zeros. -/
def npResize (l : List Int) (n : Nat) : List Int :=
  if l.length = 0 then List.replicate n 0
  else (List.replicate ((n + l.length - 1) / l.length) l).flatten.take n

/-- The log-probability ledger `_log_probabilities_data : dict[int, ...]`,
modelled as an association list with at most one binding per key. -/
abbrev Ledger := List (Int × LogProbabilities)

/-- Python dict assignment `d[k] = v`: any previous binding of `k` is
replaced. -/
def ledgerInsert (m : Ledger) (k : Int) (v : LogProbabilities) : Ledger :=
  m.filter (fun kv => kv.1 != k) ++ [(k, v)]

/-- Python `d.pop(k, None)`: remove the binding of `k` from the dict,
returning its value when present and `none` otherwise. -/
def ledgerPop (m : Ledger) (k : Int) : Option LogProbabilities × Ledger :=
  ((m.find? (fun kv => kv.1 == k)).map (fun kv => kv.2),
    m.filter (fun kv => kv.1 != k))

/-- Python `range(a, b)`: the integers `a, a+1, ..., b-1` (empty when
`b ≤ a`). -/
def intRange (a b : Int) : List Int :=
  (List.range (b - a).toNat).map (fun (i : Nat) => a + (i : Int))

/-- Advancing the external grammar matcher by an accepted token
(`matcher.accept_token`). The matcher state is modelled as the list of
tokens accepted so far; when no matcher is bound nothing happens. -/
def matcherAccept (m : Option (List Int)) (t : Int) : Option (List Int) :=
  m.map (fun l => l ++ [t])

/-- State of `TextContext`: the token buffer (`tokens`) with its tracked
capacity (`size`), the index window, the completion-delivery window, the
log-probability ledger, the optional grammar matcher and the configuration
fields stored at construction. -/
structure TextContext where
  cache_seq_id : Int
  prompt : List Int
  max_length : Option Int
  tokens : List Int
  size : Nat
  start_idx : Int
  active_idx : Int
  end_idx : Int
  completion_start_idx : Int
  completion_end_idx : Int
  log_probabilities : Int
  log_probabilities_echo : Bool
  log_probabilities_data : Ledger
  matcher : Option (List Int)
  json_schema : Option String
  is_initial_prompt : Bool
deriving DecidableEq

/-- `TextContext.__init__` for a one-dimensional token array `toks`:
capacity is `ceil (len toks / CHUNK_SIZE) * CHUNK_SIZE` (the Nat expression
`((L + CHUNK_SIZE - 1) / CHUNK_SIZE) * CHUNK_SIZE` is that ceiling), the
buffer is a fresh zero-initialized array of that capacity holding `toks` in
its first positions, `start_idx` begins at `0`, and the other four cursors
begin at the length of `toks`. -/
def TextContext.init (cache_seq_id : Int) (prompt : List Int)
    (max_length : Option Int) (toks : List Int) (log_probabilities : Int)
    (log_probabilities_echo : Bool) (json_schema : Option String) :
    TextContext :=
  let size := ((toks.length + CHUNK_SIZE - 1) / CHUNK_SIZE) * CHUNK_SIZE
  { cache_seq_id := cache_seq_id
    prompt := prompt
    max_length := max_length
    tokens := toks ++ List.replicate (size - toks.length) 0
    size := size
    start_idx := 0
    active_idx := (toks.length : Int)
    end_idx := (toks.length : Int)
    completion_start_idx := (toks.length : Int)
    completion_end_idx := (toks.length : Int)
    log_probabilities := log_probabilities
    log_probabilities_echo := log_probabilities_echo
    log_probabilities_data := []
    matcher := none
    json_schema := json_schema
    is_initial_prompt := true }

/-- `TextContext.current_length`: the current length of the sequence,
including completed and active tokens. -/
def TextContext.current_length (c : TextContext) : Int := c.end_idx

/-- `TextContext.active_length`: the number of tokens input this
iteration. -/
def TextContext.active_length (c : TextContext) : Int :=
  c.active_idx - c.start_idx

/-- `TextContext.next_tokens`: the slice `tokens[start_idx:active_idx]`. -/
def TextContext.next_tokens (c : TextContext) : List Int :=
  pySlice c.tokens c.start_idx c.active_idx

/-- `TextContext.set_matcher`. -/
def TextContext.set_matcher (c : TextContext) (m : List Int) : TextContext :=
  { c with matcher := some m }

/-- `TextContext._upsize`: when `end_idx` has reached the tracked capacity,
grow the capacity by exactly one chunk and resize the buffer to it. -/
def TextContext.upsize (c : TextContext) : TextContext :=
  if (c.size : Int) ≤ c.end_idx then
    { c with size := c.size + CHUNK_SIZE,
             tokens := npResize c.tokens (c.size + CHUNK_SIZE) }
  else c

/-- Value of an optional bump delta: the Python source evaluates
`start_idx if start_idx else 0`, so a missing delta and an explicit zero both
count as zero. -/
def optDelta (o : Option Int) : Int :=
  match o with
  | some d => d
  | none => 0

/-- `TextContext.bump_token_indices`: add the supplied deltas (a missing or
falsy delta counts as zero) to the three cursors, failing before any cursor
is mutated when the new values would violate
`new_start_idx < new_active_idx ≤ new_end_idx`, and otherwise committing all
three. -/
def TextContext.bump_token_indices (c : TextContext)
    (start_idx active_idx end_idx : Option Int) :
    Except String TextContext :=
  let new_start_idx := optDelta start_idx + c.start_idx
  let new_active_idx := optDelta active_idx + c.active_idx
  let new_end_idx := optDelta end_idx + c.end_idx
  if new_start_idx ≥ new_active_idx then
    Except.error "active_idx must always be greater than start_idx, unable to bump token indices"
  else if new_active_idx > new_end_idx then
    Except.error "end_idx must always be greater than active_idx, unable to bump token indices"
  else
    Except.ok { c with start_idx := new_start_idx,
                       active_idx := new_active_idx,
                       end_idx := new_end_idx }

/-- `TextContext.update`: mid chunked-prefill (`active_idx < end_idx`) only
`start_idx` and `active_idx` move; otherwise the buffer grows if needed, the
generated token is written at `active_idx`, a provided log-probability is
recorded at that position, the window advances by one, `completion_end_idx`
advances unless the token is end-of-sequence, the grammar matcher is fed the
token, and `is_initial_prompt` is cleared. -/
def TextContext.update (c : TextContext) (new_token : Int)
    (log_probabilities : Option LogProbabilities) (is_eos : Bool) :
    TextContext :=
  if c.active_idx < c.end_idx then
    { c with start_idx := c.active_idx, active_idx := c.end_idx }
  else
    let c1 := c.upsize
    { c1 with
      tokens := npSetI c1.tokens c1.active_idx new_token
      log_probabilities_data :=
        match log_probabilities with
        | some lp => ledgerInsert c1.log_probabilities_data c1.active_idx lp
        | none => c1.log_probabilities_data
      start_idx := c1.active_idx
      active_idx := c1.active_idx + 1
      end_idx := c1.end_idx + 1
      completion_end_idx :=
        if is_eos then c1.completion_end_idx else c1.completion_end_idx + 1
      matcher := matcherAccept c1.matcher new_token
      is_initial_prompt := false }

/-- `TextContext.jump_ahead`: grow the buffer if needed, write the forced
token at `active_idx`, advance `active_idx`, `end_idx` and
`completion_end_idx` by one each (leaving `start_idx` alone and recording no
log-probability), feed the grammar matcher, and clear `is_initial_prompt`. -/
def TextContext.jump_ahead (c : TextContext) (new_token : Int) : TextContext :=
  let c1 := c.upsize
  { c1 with
    tokens := npSetI c1.tokens c1.active_idx new_token
    active_idx := c1.active_idx + 1
    end_idx := c1.end_idx + 1
    completion_end_idx := c1.completion_end_idx + 1
    matcher := matcherAccept c1.matcher new_token
    is_initial_prompt := false }

/-- `TextContext.reset`: set `start_idx` back to `0` and mark the context as
an initial prompt again, leaving everything else alone. -/
def TextContext.reset (c : TextContext) : TextContext :=
  { c with start_idx := 0, is_initial_prompt := true }

/-- Loop body of `outstanding_completion_tokens`: for each position in the
given index list, read the buffer at that position and pop its ledger entry,
returning the accumulated pairs and the final ledger. -/
def drainLoop (toks : List Int) (idxs : List Int) (m : Ledger) :
    List (Int × Option LogProbabilities) × Ledger :=
  match idxs with
  | [] => ([], m)
  | i :: rest =>
    let p := ledgerPop m i
    let r := drainLoop toks rest p.2
    ((npGetI toks i, p.1) :: r.1, r.2)

/-- `TextContext.outstanding_completion_tokens`: return the
`(token, log-probability)` pairs for positions in
`[completion_start_idx, completion_end_idx)`, popping each position's ledger
entry, then advance `completion_start_idx` to `completion_end_idx`. -/
def TextContext.outstanding_completion_tokens (c : TextContext) :
    List (Int × Option LogProbabilities) × TextContext :=
  let r := drainLoop c.tokens
    (intRange c.completion_start_idx c.completion_end_idx)
    c.log_probabilities_data
  (r.1, { c with completion_start_idx := c.completion_end_idx,
                 log_probabilities_data := r.2 })

/-- State of `TextAndVisionContext`: a `TextContext` together with the
auxiliary pixel-value arrays and extra model arguments supplied at
construction. The opaque pixel arrays and argument values are modelled as
integer lists and integers. -/
structure TextAndVisionContext where
  toTextContext : TextContext
  pixel_values : List (List Int)
  extra_model_args : List (String × Int)
deriving DecidableEq

/-- `TextAndVisionContext.update`: perform the inherited `TextContext.update`
and then clear `pixel_values` so the auxiliary inputs are never re-sent. -/
def TextAndVisionContext.update (c : TextAndVisionContext) (new_token : Int)
    (log_probabilities : Option LogProbabilities) (is_eos : Bool) :
    TextAndVisionContext :=
  { c with
    toTextContext := c.toTextContext.update new_token log_probabilities is_eos
    pixel_values := [] }

/-- A public mutating operation on a `TextContext`, as enumerated by the
specification: update, jump-ahead, index bump, reset and
drain-completion-window. -/
inductive Op where
  | update (t : Int) (lp : Option LogProbabilities) (eos : Bool)
  | jumpAhead (t : Int)
  | bump (s a e : Option Int)
  | reset
  | drain
deriving DecidableEq

/-- Application of one public operation to a context. A failing
`bump_token_indices` raises in Python without mutating the context, so it
leaves the state unchanged here. -/
def applyOp (c : TextContext) (op : Op) : TextContext :=
  match op with
  | .update t lp eos => c.update t lp eos
  | .jumpAhead t => c.jump_ahead t
  | .bump s a e =>
    match c.bump_token_indices s a e with
    | .ok c2 => c2
    | .error _ => c
  | .reset => c.reset
  | .drain => (c.outstanding_completion_tokens).2

/-- Application of a sequence of public operations, first to last. -/
def run (c : TextContext) (ops : List Op) : TextContext :=
  ops.foldl applyOp c

/-- The index-window invariants of the specification:
`0 ≤ start_idx ≤ active_idx ≤ end_idx ≤ capacity`, the capacity is a
multiple of `CHUNK_SIZE` and matches the buffer length, and
`completion_start_idx ≤ completion_end_idx ≤ end_idx`. -/
def CtxInv (c : TextContext) : Prop :=
  0 ≤ c.start_idx ∧ c.start_idx ≤ c.active_idx ∧ c.active_idx ≤ c.end_idx ∧
  c.end_idx ≤ (c.size : Int) ∧ c.size % CHUNK_SIZE = 0 ∧
  c.tokens.length = c.size ∧
  c.completion_start_idx ≤ c.completion_end_idx ∧
  c.completion_end_idx ≤ c.end_idx

instance (c : TextContext) : Decidable (CtxInv c) := by
  unfold CtxInv; infer_instance

/-- Buffer positions drained by a call to `outstanding_completion_tokens`
issued in state `c`: the window `[completion_start_idx, completion_end_idx)`. -/
def inDrainRange (c : TextContext) (p : Int) : Prop :=
  c.completion_start_idx ≤ p ∧ p < c.completion_end_idx

instance (c : TextContext) (p : Int) : Decidable (inDrainRange c p) := by
  unfold inDrainRange; infer_instance

/-- Whether an operation is an index bump. -/
def Op.isBump : Op → Bool
  | .bump _ _ _ => true
  | _ => false

/-- Whether an operation appends a token to the sequence (moving
`completion_end_idx`): `update` and `jumpAhead` do, the others never touch
`completion_end_idx`. -/
def Op.isAppend : Op → Bool
  | .update _ _ _ => true
  | .jumpAhead _ => true
  | _ => false

/-! Helper lemmas about the buffer primitives. -/

lemma le_ceil_mul (n k : Nat) (hk : 0 < k) : n ≤ ((n + k - 1) / k) * k := by
  rcases Nat.eq_zero_or_pos n with h | h
  · simp [h]
  · have h1 : n + k - 1 = (n - 1) + k := by omega
    rw [h1, Nat.add_div_right _ hk, Nat.add_mul, Nat.one_mul]
    have h3 := Nat.lt_div_mul_add (a := n - 1) hk
    exact le_trans (by omega : n ≤ n - 1 + 1) (Nat.succ_le_of_lt h3)

lemma length_npResize (l : List Int) (n : Nat) : (npResize l n).length = n := by
  unfold npResize
  split
  · simp
  · rename_i h
    have hpos : 0 < l.length := Nat.pos_of_ne_zero h
    rw [List.length_take, List.length_flatten, List.map_replicate,
      List.sum_const_nat]
    exact Nat.min_eq_left (le_ceil_mul n l.length hpos)

lemma length_npSetI (l : List Int) (i v : Int) :
    (npSetI l i v).length = l.length := by
  unfold npSetI
  dsimp only
  split <;> split <;> simp

lemma npGetI_npSetI_self (l : List Int) (i v : Int) (h0 : 0 ≤ i)
    (h1 : i < (l.length : Int)) : npGetI (npSetI l i v) i = v := by
  have hneg : ¬ i < 0 := by omega
  have hlt : i.toNat < l.length := by omega
  simp [npGetI, npSetI, hneg, h0, h1, List.getD, hlt]

/-! Helper lemmas about `intRange`. -/

lemma mem_intRange (lo hi a : Int) : a ∈ intRange lo hi ↔ lo ≤ a ∧ a < hi := by
  unfold intRange
  constructor
  · intro h
    rcases List.mem_map.1 h with ⟨i, hi1, rfl⟩
    have := List.mem_range.1 hi1
    omega
  · intro h
    exact List.mem_map.2 ⟨(a - lo).toNat, List.mem_range.2 (by omega), by omega⟩

lemma contains_intRange (lo hi a : Int) :
    (intRange lo hi).contains a = decide (lo ≤ a ∧ a < hi) := by
  simp [List.contains, List.elem_eq_mem, mem_intRange]

/-! Helper lemmas about `_upsize`. -/

lemma upsize_frame (c : TextContext) :
    (c.upsize).start_idx = c.start_idx ∧
    (c.upsize).active_idx = c.active_idx ∧
    (c.upsize).end_idx = c.end_idx ∧
    (c.upsize).completion_start_idx = c.completion_start_idx ∧
    (c.upsize).completion_end_idx = c.completion_end_idx ∧
    (c.upsize).log_probabilities_data = c.log_probabilities_data ∧
    (c.upsize).matcher = c.matcher ∧
    (c.upsize).is_initial_prompt = c.is_initial_prompt := by
  unfold TextContext.upsize
  split <;> simp

lemma upsize_size (c : TextContext) :
    (c.upsize).size =
      if (c.size : Int) ≤ c.end_idx then c.size + CHUNK_SIZE else c.size := by
  unfold TextContext.upsize
  split <;> simp_all

lemma upsize_tokens_length (c : TextContext) (h : c.tokens.length = c.size) :
    (c.upsize).tokens.length = (c.upsize).size := by
  unfold TextContext.upsize
  split <;> simp [length_npResize, h]

lemma upsize_end_lt_size (c : TextContext) (h : c.end_idx ≤ (c.size : Int)) :
    c.end_idx < ((c.upsize).size : Int) := by
  rw [upsize_size]
  split <;> rename_i h2
  · have : (0:Int) < (CHUNK_SIZE : Int) := by decide
    push_cast
    omega
  · omega

lemma upsize_size_mod (c : TextContext) (h : c.size % CHUNK_SIZE = 0) :
    (c.upsize).size % CHUNK_SIZE = 0 := by
  rw [upsize_size]
  have h2 : CHUNK_SIZE = 128 := rfl
  rw [h2] at h ⊢
  split
  · omega
  · exact h

/-! Facts about `run`. -/

lemma run_nil (c : TextContext) : run c [] = c := rfl

lemma run_cons (c : TextContext) (op : Op) (ops : List Op) :
    run c (op :: ops) = run (applyOp c op) ops := rfl

/-! Establishment and preservation of the index-window invariants. -/

lemma ctxInv_init (cid : Int) (prompt : List Int) (ml : Option Int)
    (toks : List Int) (lp : Int) (echo : Bool) (js : Option String) :
    CtxInv (TextContext.init cid prompt ml toks lp echo js) := by
  unfold TextContext.init CtxInv
  dsimp only
  have h1 := le_ceil_mul toks.length CHUNK_SIZE (by decide)
  refine ⟨le_refl _, by omega, le_refl _, by exact_mod_cast Int.ofNat_le.2 h1,
    Nat.mul_mod_left _ _, ?_, le_refl _, le_refl _⟩
  rw [List.length_append, List.length_replicate]
  omega

lemma ctxInv_update (c : TextContext) (t : Int) (lp : Option LogProbabilities)
    (eos : Bool) (h : CtxInv c) : CtxInv (c.update t lp eos) := by
  obtain ⟨h1, h2, h3, h4, h5, h6, h7, h8⟩ := h
  obtain ⟨u1, u2, u3, u4, u5, u6, u7, u8⟩ := upsize_frame c
  have hu1 := upsize_tokens_length c h6
  have hu2 := upsize_end_lt_size c h4
  have hu3 := upsize_size_mod c h5
  unfold TextContext.update
  split
  · refine ⟨?_, ?_, ?_, ?_, ?_, ?_, ?_, ?_⟩ <;> dsimp only <;>
      first | assumption | omega
  · refine ⟨?_, ?_, ?_, ?_, hu3, ?_, ?_, ?_⟩
    · dsimp only; omega
    · dsimp only; omega
    · dsimp only; omega
    · dsimp only; omega
    · dsimp only; rw [length_npSetI, hu1]
    · dsimp only; split <;> omega
    · dsimp only; split <;> omega

lemma ctxInv_jump_ahead (c : TextContext) (t : Int) (h : CtxInv c) :
    CtxInv (c.jump_ahead t) := by
  obtain ⟨h1, h2, h3, h4, h5, h6, h7, h8⟩ := h
  obtain ⟨u1, u2, u3, u4, u5, u6, u7, u8⟩ := upsize_frame c
  have hu1 := upsize_tokens_length c h6
  have hu2 := upsize_end_lt_size c h4
  have hu3 := upsize_size_mod c h5
  unfold TextContext.jump_ahead
  refine ⟨?_, ?_, ?_, ?_, hu3, ?_, ?_, ?_⟩
  · dsimp only; omega
  · dsimp only; omega
  · dsimp only; omega
  · dsimp only; omega
  · dsimp only; rw [length_npSetI, hu1]
  · dsimp only; omega
  · dsimp only; omega

lemma ctxInv_reset (c : TextContext) (h : CtxInv c) : CtxInv (c.reset) := by
  obtain ⟨h1, h2, h3, h4, h5, h6, h7, h8⟩ := h
  refine ⟨?_, ?_, ?_, ?_, ?_, ?_, ?_, ?_⟩ <;>
    dsimp only [TextContext.reset] <;> first | assumption | omega

lemma ctxInv_drain (c : TextContext) (h : CtxInv c) :
    CtxInv (c.outstanding_completion_tokens).2 := by
  obtain ⟨h1, h2, h3, h4, h5, h6, h7, h8⟩ := h
  refine ⟨?_, ?_, ?_, ?_, ?_, ?_, ?_, ?_⟩ <;>
    dsimp only [TextContext.outstanding_completion_tokens] <;>
    first | assumption | omega

/-! Frame facts about a (possibly failing) index bump. -/

lemma bump_frame (c : TextContext) (s a e : Option Int) :
    (applyOp c (.bump s a e)).tokens = c.tokens ∧
    (applyOp c (.bump s a e)).size = c.size ∧
    (applyOp c (.bump s a e)).completion_start_idx = c.completion_start_idx ∧
    (applyOp c (.bump s a e)).completion_end_idx = c.completion_end_idx ∧
    (applyOp c (.bump s a e)).log_probabilities_data
      = c.log_probabilities_data := by
  unfold applyOp TextContext.bump_token_indices
  dsimp only
  by_cases h1 : optDelta s + c.start_idx ≥ optDelta a + c.active_idx
  · simp [h1]
  · by_cases h2 : optDelta a + c.active_idx > optDelta e + c.end_idx
    · simp [h1, h2]
    · simp [h1, h2]

/-! Branch equations for `update` and `jump_ahead`. -/

lemma update_prefill (c : TextContext) (t : Int) (lp : Option LogProbabilities)
    (eos : Bool) (h : c.active_idx < c.end_idx) :
    c.update t lp eos
      = { c with start_idx := c.active_idx, active_idx := c.end_idx } := by
  unfold TextContext.update
  rw [if_pos h]

lemma update_gen (c : TextContext) (t : Int) (lp : Option LogProbabilities)
    (eos : Bool) (h : ¬ c.active_idx < c.end_idx) :
    c.update t lp eos
      = { c.upsize with
          tokens := npSetI (c.upsize).tokens (c.upsize).active_idx t
          log_probabilities_data :=
            match lp with
            | some l => ledgerInsert (c.upsize).log_probabilities_data
                (c.upsize).active_idx l
            | none => (c.upsize).log_probabilities_data
          start_idx := (c.upsize).active_idx
          active_idx := (c.upsize).active_idx + 1
          end_idx := (c.upsize).end_idx + 1
          completion_end_idx :=
            if eos then (c.upsize).completion_end_idx
            else (c.upsize).completion_end_idx + 1
          matcher := matcherAccept (c.upsize).matcher t
          is_initial_prompt := false } := by
  unfold TextContext.update
  rw [if_neg h]

lemma jump_ahead_eq (c : TextContext) (t : Int) :
    c.jump_ahead t
      = { c.upsize with
          tokens := npSetI (c.upsize).tokens (c.upsize).active_idx t
          active_idx := (c.upsize).active_idx + 1
          end_idx := (c.upsize).end_idx + 1
          completion_end_idx := (c.upsize).completion_end_idx + 1
          matcher := matcherAccept (c.upsize).matcher t
          is_initial_prompt := false } := rfl

/-! Monotonicity of the completion-delivery window. -/

lemma cs_ce_applyOp (c : TextContext) (op : Op) :
    ((applyOp c op).completion_start_idx = c.completion_start_idx ∨
      (applyOp c op).completion_start_idx = c.completion_end_idx) ∧
    c.completion_end_idx ≤ (applyOp c op).completion_end_idx := by
  cases op with
  | update t lp eos =>
    obtain ⟨u1, u2, u3, u4, u5, u6, u7, u8⟩ := upsize_frame c
    show ((c.update t lp eos).completion_start_idx = _ ∨
      (c.update t lp eos).completion_start_idx = _) ∧
      _ ≤ (c.update t lp eos).completion_end_idx
    by_cases hb : c.active_idx < c.end_idx
    · rw [update_prefill c t lp eos hb]
      exact ⟨Or.inl rfl, le_refl _⟩
    · rw [update_gen c t lp eos hb]
      constructor
      · left; dsimp only; exact u4
      · dsimp only; split <;> omega
  | jumpAhead t =>
    obtain ⟨u1, u2, u3, u4, u5, u6, u7, u8⟩ := upsize_frame c
    show ((c.jump_ahead t).completion_start_idx = _ ∨
      (c.jump_ahead t).completion_start_idx = _) ∧
      _ ≤ (c.jump_ahead t).completion_end_idx
    rw [jump_ahead_eq c t]
    constructor
    · left; dsimp only; exact u4
    · dsimp only; omega
  | bump s a e =>
    obtain ⟨b1, b2, b3, b4, b5⟩ := bump_frame c s a e
    exact ⟨Or.inl b3, le_of_eq b4.symm⟩
  | reset => exact ⟨Or.inl rfl, le_refl _⟩
  | drain => exact ⟨Or.inr rfl, le_refl _⟩

lemma cs_run_mono (c : TextContext) (ops : List Op)
    (h : c.completion_start_idx ≤ c.completion_end_idx) :
    c.completion_start_idx ≤ (run c ops).completion_start_idx ∧
    (run c ops).completion_start_idx ≤ (run c ops).completion_end_idx := by
  induction ops generalizing c with
  | nil => exact ⟨le_refl _, h⟩
  | cons op rest ih =>
    have hb := cs_ce_applyOp c op
    have h2 : (applyOp c op).completion_start_idx
        ≤ (applyOp c op).completion_end_idx := by
      rcases hb.1 with h3 | h3 <;> omega
    have h3 := ih (applyOp c op) h2
    rw [run_cons]
    constructor
    · rcases hb.1 with h4 | h4 <;> omega
    · exact h3.2

lemma ce_applyOp_noappend (c : TextContext) (op : Op)
    (h : op.isAppend = false) :
    (applyOp c op).completion_end_idx = c.completion_end_idx := by
  cases op with
  | update t lp eos => simp [Op.isAppend] at h
  | jumpAhead t => simp [Op.isAppend] at h
  | bump s a e => exact (bump_frame c s a e).2.2.2.1
  | reset => rfl
  | drain => rfl

lemma ce_run_noappend (c : TextContext) (ops : List Op)
    (h : ∀ op ∈ ops, op.isAppend = false) :
    (run c ops).completion_end_idx = c.completion_end_idx := by
  induction ops generalizing c with
  | nil => rfl
  | cons op rest ih =>
    rw [run_cons, ih (applyOp c op) (fun o ho => h o (List.mem_cons_of_mem _ ho)),
      ce_applyOp_noappend c op (h op (List.mem_cons_self _ _))]

/-! The ledger after drain-completion-window. -/

lemma drainLoop_ledger (toks : List Int) (idxs : List Int) (m : Ledger) :
    (drainLoop toks idxs m).2
      = m.filter (fun kv => !(idxs.contains kv.1)) := by
  induction idxs generalizing m with
  | nil => simp [drainLoop]
  | cons i rest ih =>
    unfold drainLoop ledgerPop
    dsimp only
    rw [ih, List.filter_filter]
    apply List.filter_congr
    intro kv _
    by_cases h : kv.1 = i
    · simp [h, List.contains_cons]
    · simp [h, List.contains_cons, Bool.and_comm]

lemma drain_ledger (c : TextContext) :
    (c.outstanding_completion_tokens).2.log_probabilities_data
      = c.log_probabilities_data.filter
        (fun kv => !(decide (c.completion_start_idx ≤ kv.1 ∧
          kv.1 < c.completion_end_idx))) := by
  unfold TextContext.outstanding_completion_tokens
  dsimp only
  rw [drainLoop_ledger]
  apply List.filter_congr
  intro kv _
  rw [contains_intRange]

/-! Concrete contexts used to instantiate the theorems below. -/

/-- Context built from the one-token prompt `[5]` (capacity 128). -/
def exOne : TextContext := TextContext.init 0 [] none [5] 0 false none

/-- Context built from the empty prompt (capacity 0, all cursors 0). -/
def exEmpty : TextContext := TextContext.init 0 [] none [] 0 false none

/-- Context built from the prompt `[1, 2]`. -/
def exTwo : TextContext := TextContext.init 0 [] none [1, 2] 0 false none

/-- Mid-chunked-prefill context: `exTwo` after bumping `active_idx` by `-1`,
so that `start_idx = 0`, `active_idx = 1`, `end_idx = 2`. -/
def exMidPrefill : TextContext := applyOp exTwo (Op.bump none (some (-1)) none)

/-- Context built from the prompt `[7]` after generating token `9`, then the
end-of-sequence token `5`, then token `6`: the EOS token sits at buffer
position 2 with `completion_start_idx = 1` and `completion_end_idx = 3`. -/
def exAfterEos : TextContext :=
  applyOp (applyOp (applyOp (TextContext.init 0 [] none [7] 0 false none)
    (Op.update 9 none false)) (Op.update 5 none true)) (Op.update 6 none false)

/-- C1 counterexample: the invariants do not survive every public operation.
Starting from a freshly constructed context of capacity 128 (which satisfies
them), a single successful `bump_token_indices` with `end_idx` delta `200`
leaves `end_idx = 201 > capacity = 128`, violating `end_idx ≤ capacity`. -/
theorem C1_counterexample :
    CtxInv exOne ∧
    (applyOp exOne (Op.bump none none (some 200))).end_idx = 201 ∧
    (applyOp exOne (Op.bump none none (some 200))).size = 128 ∧
    ¬ ((applyOp exOne (Op.bump none none (some 200))).end_idx
        ≤ ((applyOp exOne (Op.bump none none (some 200))).size : Int)) ∧
    ¬ CtxInv (applyOp exOne (Op.bump none none (some 200))) := by
  decide

/-- C1 (amended): construction establishes the invariants
`0 ≤ start_idx ≤ active_idx ≤ end_idx ≤ capacity`, `capacity` a multiple of
128 matching the buffer length, and
`completion_start_idx ≤ completion_end_idx ≤ end_idx`; every public operation
except `bump_token_indices` preserves them; a successful
`bump_token_indices` guarantees only `start_idx < active_idx ≤ end_idx` and
may violate the rest (see the counterexample). -/
theorem C1_amended :
    (∀ (cid : Int) (prompt : List Int) (ml : Option Int) (toks : List Int)
        (lp : Int) (echo : Bool) (js : Option String),
      CtxInv (TextContext.init cid prompt ml toks lp echo js)) ∧
    (∀ (c : TextContext) (op : Op), CtxInv c → op.isBump = false →
      CtxInv (applyOp c op)) ∧
    (∀ (c c2 : TextContext) (s a e : Option Int),
      c.bump_token_indices s a e = Except.ok c2 →
      c2.start_idx < c2.active_idx ∧ c2.active_idx ≤ c2.end_idx) := by
  refine ⟨ctxInv_init, ?_, ?_⟩
  · intro c op h hnb
    cases op with
    | update t lp eos => exact ctxInv_update c t lp eos h
    | jumpAhead t => exact ctxInv_jump_ahead c t h
    | bump s a e => simp [Op.isBump] at hnb
    | reset => exact ctxInv_reset c h
    | drain => exact ctxInv_drain c h
  · intro c c2 s a e h
    unfold TextContext.bump_token_indices at h
    dsimp only at h
    by_cases h1 : optDelta s + c.start_idx ≥ optDelta a + c.active_idx
    · rw [if_pos h1] at h
      exact Except.noConfusion h
    · rw [if_neg h1] at h
      by_cases h2 : optDelta a + c.active_idx > optDelta e + c.end_idx
      · rw [if_pos h2] at h
        exact Except.noConfusion h
      · rw [if_neg h2] at h
        injection h with h3
        rw [← h3]
        dsimp only
        omega

/-- C1 witness: a concrete application of the amended theorem, showing the
invariants hold after `reset` on a freshly constructed context. -/
theorem C1_witness : CtxInv (applyOp exOne Op.reset) :=
  C1_amended.2.1 exOne Op.reset (C1_amended.1 0 [] none [5] 0 false none) rfl

/-- C2: mid chunked-prefill (`active_idx < end_idx`), `update` only sets
`start_idx` to the old `active_idx` and `active_idx` to `end_idx`, ignoring
its arguments: no buffer write, no ledger write, no matcher advance, and
`end_idx`, the completion window, the capacity and the buffer are
unchanged. -/
theorem C2_update_prefill_frame (c : TextContext) (t : Int)
    (lp : Option LogProbabilities) (eos : Bool)
    (h : c.active_idx < c.end_idx) :
    c.update t lp eos
      = { c with start_idx := c.active_idx, active_idx := c.end_idx } ∧
    (c.update t lp eos).start_idx = c.active_idx ∧
    (c.update t lp eos).active_idx = c.end_idx ∧
    (c.update t lp eos).tokens = c.tokens ∧
    (c.update t lp eos).log_probabilities_data = c.log_probabilities_data ∧
    (c.update t lp eos).matcher = c.matcher ∧
    (c.update t lp eos).end_idx = c.end_idx ∧
    (c.update t lp eos).completion_start_idx = c.completion_start_idx ∧
    (c.update t lp eos).completion_end_idx = c.completion_end_idx ∧
    (c.update t lp eos).size = c.size ∧
    (c.update t lp eos).is_initial_prompt = c.is_initial_prompt := by
  rw [update_prefill c t lp eos h]
  exact ⟨rfl, rfl, rfl, rfl, rfl, rfl, rfl, rfl, rfl, rfl, rfl⟩

/-- C2 witness: the frame property applied to a concrete mid-prefill
context, with arbitrary arguments `42`, `some 7`, `is_eos = true`. -/
theorem C2_witness :
    TextContext.update exMidPrefill 42 (some 7) true
      = { exMidPrefill with
          start_idx := exMidPrefill.active_idx
          active_idx := exMidPrefill.end_idx } :=
  (C2_update_prefill_frame exMidPrefill 42 (some 7) true (by decide)).1

/-- C3 counterexample: the EOS token can appear in a drain result. From the
prompt `[7]`, generate `9`, then the EOS token `5` (`is_eos = true`), then
keep generating (`6`): the EOS token sits at buffer position 2, that position
lies in the completion window `[1, 3)`, and the subsequent
`outstanding_completion_tokens` call returns the EOS token `5`. -/
theorem C3_counterexample :
    (applyOp (applyOp (TextContext.init 0 [] none [7] 0 false none)
        (Op.update 9 none false)) (Op.update 5 none true)).end_idx = 3 ∧
    (applyOp (applyOp (TextContext.init 0 [] none [7] 0 false none)
        (Op.update 9 none false)) (Op.update 5 none true)).completion_end_idx
      = 2 ∧
    npGetI exAfterEos.tokens 2 = 5 ∧
    inDrainRange exAfterEos 2 ∧
    (exAfterEos.outstanding_completion_tokens).1 = [(9, none), (5, none)] := by
  decide

/-- C3 (amended): with `active_idx = end_idx`, `update` with `is_eos = true`
writes the token at the old `active_idx` and increments `end_idx` but not
`completion_end_idx`; the EOS position stays out of every later drain range
as long as the subsequent operations contain no further token-appending call
(`update` or `jump_ahead`) — a later `update`, as in the counterexample, can
move `completion_end_idx` past it. -/
theorem C3_amended (c : TextContext) (t : Int) (lp : Option LogProbabilities)
    (hae : c.active_idx = c.end_idx) (hInv : CtxInv c) (ops : List Op)
    (hops : ∀ op ∈ ops, op.isAppend = false) :
    (c.update t lp true).end_idx = c.end_idx + 1 ∧
    (c.update t lp true).completion_end_idx = c.completion_end_idx ∧
    npGetI (c.update t lp true).tokens c.active_idx = t ∧
    ¬ inDrainRange (run (c.update t lp true) ops) c.active_idx := by
  obtain ⟨h1, h2, h3, h4, h5, h6, h7, h8⟩ := hInv
  obtain ⟨u1, u2, u3, u4, u5, u6, u7, u8⟩ := upsize_frame c
  have hu1 := upsize_tokens_length c h6
  have hu2 := upsize_end_lt_size c h4
  have hlen : ((c.upsize).tokens.length : Int) = ((c.upsize).size : Int) := by
    exact_mod_cast congrArg Nat.cast hu1
  have hnb : ¬ c.active_idx < c.end_idx := by omega
  have hEq := update_gen c t lp true hnb
  have hceq : (c.update t lp true).completion_end_idx
      = c.completion_end_idx := by
    rw [hEq]
    dsimp only
    rw [if_pos rfl, u5]
  refine ⟨?_, hceq, ?_, ?_⟩
  · rw [hEq]
    dsimp only
    rw [u3]
  · rw [hEq]
    dsimp only
    rw [u2]
    exact npGetI_npSetI_self _ _ _ (by omega) (by omega)
  · intro hdr
    obtain ⟨hd1, hd2⟩ := hdr
    have hce := ce_run_noappend (c.update t lp true) ops hops
    rw [hce, hceq] at hd2
    omega

/-- C3 witness: the amended theorem applied to the empty-prompt context with
token `5` and an empty operation suffix. -/
theorem C3_witness :
    (TextContext.update exEmpty 5 none true).end_idx = exEmpty.end_idx + 1 ∧
    (TextContext.update exEmpty 5 none true).completion_end_idx
      = exEmpty.completion_end_idx ∧
    npGetI (TextContext.update exEmpty 5 none true).tokens exEmpty.active_idx
      = 5 ∧
    ¬ inDrainRange (run (TextContext.update exEmpty 5 none true) [])
        exEmpty.active_idx :=
  C3_amended exEmpty 5 none rfl (by decide) []
    (fun op h => absurd h (List.not_mem_nil op))

/-- C4: `bump_token_indices` computes the three new cursor values from the
optional deltas (missing deltas count as zero), fails whenever
`new_start_idx ≥ new_active_idx` or `new_active_idx > new_end_idx` with the
context left completely unchanged (no cursor was yet mutated), and otherwise
commits all three new values atomically. -/
theorem C4_bump_checks (c : TextContext) (s a e : Option Int) :
    (optDelta s + c.start_idx ≥ optDelta a + c.active_idx ∨
        optDelta a + c.active_idx > optDelta e + c.end_idx →
      (∀ c2 : TextContext, c.bump_token_indices s a e ≠ Except.ok c2) ∧
      applyOp c (Op.bump s a e) = c) ∧
    (¬ optDelta s + c.start_idx ≥ optDelta a + c.active_idx →
      ¬ optDelta a + c.active_idx > optDelta e + c.end_idx →
      c.bump_token_indices s a e
        = Except.ok { c with
            start_idx := optDelta s + c.start_idx
            active_idx := optDelta a + c.active_idx
            end_idx := optDelta e + c.end_idx }) := by
  constructor
  · intro hcond
    unfold applyOp TextContext.bump_token_indices
    dsimp only
    rcases Decidable.em
        (optDelta s + c.start_idx ≥ optDelta a + c.active_idx) with h1 | h1
    · rw [if_pos h1]
      exact ⟨fun c2 hc => Except.noConfusion hc, rfl⟩
    · have h2 : optDelta a + c.active_idx > optDelta e + c.end_idx :=
        hcond.resolve_left h1
      rw [if_neg h1, if_pos h2]
      exact ⟨fun c2 hc => Except.noConfusion hc, rfl⟩
  · intro h1 h2
    unfold TextContext.bump_token_indices
    dsimp only
    rw [if_neg h1, if_neg h2]

/-- C4 witness: a successful bump on the empty-prompt context with deltas
`active_idx += 1`, `end_idx += 1` commits all three cursors. -/
theorem C4_witness :
    TextContext.bump_token_indices exEmpty none (some 1) (some 1)
      = Except.ok { exEmpty with
          start_idx := optDelta none + exEmpty.start_idx
          active_idx := optDelta (some 1) + exEmpty.active_idx
          end_idx := optDelta (some 1) + exEmpty.end_idx } :=
  (C4_bump_checks exEmpty none (some 1) (some 1)).2 (by decide) (by decide)

/-- C5: `jump_ahead` grows the buffer by exactly one chunk when `end_idx`
has reached the capacity, writes the forced token at `active_idx`,
increments `active_idx`, `end_idx` and `completion_end_idx` by one each,
leaves `start_idx` and the log-probability ledger untouched, and therefore
lengthens the active window by one. -/
theorem C5_jump_ahead (c : TextContext) (t : Int) (h : CtxInv c) :
    (c.jump_ahead t).size
      = (if (c.size : Int) ≤ c.end_idx then c.size + CHUNK_SIZE else c.size) ∧
    npGetI (c.jump_ahead t).tokens c.active_idx = t ∧
    (c.jump_ahead t).active_idx = c.active_idx + 1 ∧
    (c.jump_ahead t).end_idx = c.end_idx + 1 ∧
    (c.jump_ahead t).completion_end_idx = c.completion_end_idx + 1 ∧
    (c.jump_ahead t).start_idx = c.start_idx ∧
    (c.jump_ahead t).log_probabilities_data = c.log_probabilities_data ∧
    (c.jump_ahead t).active_length = c.active_length + 1 := by
  obtain ⟨h1, h2, h3, h4, h5, h6, h7, h8⟩ := h
  obtain ⟨u1, u2, u3, u4, u5, u6, u7, u8⟩ := upsize_frame c
  have hu1 := upsize_tokens_length c h6
  have hu2 := upsize_end_lt_size c h4
  have hlen : ((c.upsize).tokens.length : Int) = ((c.upsize).size : Int) := by
    exact_mod_cast congrArg Nat.cast hu1
  rw [jump_ahead_eq c t]
  refine ⟨?_, ?_, ?_, ?_, ?_, ?_, ?_, ?_⟩
  · dsimp only
    exact upsize_size c
  · dsimp only
    rw [u2]
    exact npGetI_npSetI_self _ _ _ (by omega) (by omega)
  · dsimp only
    rw [u2]
  · dsimp only
    rw [u3]
  · dsimp only
    rw [u5]
  · dsimp only
    exact u1
  · dsimp only
    exact u6
  · unfold TextContext.active_length
    dsimp only
    rw [u1, u2]
    omega

/-- C5 witness: jumping ahead with token `11` on the empty-prompt context
writes `11` at position `0`. -/
theorem C5_witness :
    npGetI (TextContext.jump_ahead exEmpty 11).tokens exEmpty.active_idx
      = 11 :=
  (C5_jump_ahead exEmpty 11 (by decide)).2.1

/-- C6 counterexample: after `reset` the next active window spans
`[0, active_idx)`, not `[0, end_idx)`, and the two differ in a mid-prefill
state. In `exMidPrefill` (`active_idx = 1 < end_idx = 2`), `reset` yields
`start_idx = 0` but `next_tokens = [1]`, while the buffer contents on
`[0, end_idx)` are `[1, 2]`. -/
theorem C6_counterexample :
    (TextContext.reset exMidPrefill).start_idx = 0 ∧
    (TextContext.reset exMidPrefill).end_idx = 2 ∧
    TextContext.next_tokens (TextContext.reset exMidPrefill) = [1] ∧
    TextContext.next_tokens (TextContext.reset exMidPrefill)
      ≠ (TextContext.reset exMidPrefill).tokens.take
          ((TextContext.reset exMidPrefill).end_idx).toNat := by
  decide

/-- C6 (amended): `reset` sets `start_idx` to `0` and `is_initial_prompt` to
`true` and changes nothing else; afterwards the next active window spans
`[0, active_idx)`, which equals `[0, end_idx)` whenever
`active_idx = end_idx` (no chunked prefill mid-flight). -/
theorem C6_reset (c : TextContext) :
    c.reset = { c with start_idx := 0, is_initial_prompt := true } ∧
    (c.reset).start_idx = 0 ∧
    (c.reset).is_initial_prompt = true ∧
    (c.reset).active_idx = c.active_idx ∧
    (c.reset).end_idx = c.end_idx ∧
    (c.reset).completion_start_idx = c.completion_start_idx ∧
    (c.reset).completion_end_idx = c.completion_end_idx ∧
    (c.reset).size = c.size ∧
    (c.reset).tokens = c.tokens ∧
    (CtxInv c → c.active_idx = c.end_idx →
      (c.reset).next_tokens = c.tokens.take (c.end_idx).toNat) := by
  refine ⟨rfl, rfl, rfl, rfl, rfl, rfl, rfl, rfl, rfl, ?_⟩
  intro hInv hae
  obtain ⟨h1, h2, h3, h4, h5, h6, h7, h8⟩ := hInv
  unfold TextContext.next_tokens pySlice pyIx TextContext.reset
  dsimp only
  rw [if_neg (show ¬ c.active_idx < 0 by omega),
    if_neg (show ¬ (0 : Int) < 0 by omega), hae]
  have hmin : min (c.end_idx).toNat c.tokens.length = (c.end_idx).toNat := by
    omega
  rw [hmin]
  simp

/-- C6 witness: the amended theorem applied to the two-token prompt context,
where `active_idx = end_idx = 2`, so the post-reset window is the whole
committed buffer prefix. -/
theorem C6_witness :
    (TextContext.reset exTwo).next_tokens
      = exTwo.tokens.take (exTwo.end_idx).toNat :=
  (C6_reset exTwo).2.2.2.2.2.2.2.2.2 (by decide) (by decide)

/-- C7: drain-completion-window never returns the same buffer position
twice. If position `p` lies in the drained window of a call issued in state
`c`, then after that call and any further sequence of public operations, `p`
is below the new `completion_start_idx`, hence outside every later drained
window. -/
theorem C7_drain_no_repeat (c : TextContext) (ops : List Op) (p : Int)
    (h : inDrainRange c p) :
    ¬ inDrainRange (run (c.outstanding_completion_tokens).2 ops) p := by
  intro h2
  obtain ⟨hd1, hd2⟩ := h
  obtain ⟨he1, he2⟩ := h2
  have hcs2 : (c.outstanding_completion_tokens).2.completion_start_idx
      = c.completion_end_idx := rfl
  have hce2 : (c.outstanding_completion_tokens).2.completion_end_idx
      = c.completion_end_idx := rfl
  have hmono := cs_run_mono (c.outstanding_completion_tokens).2 ops
    (by rw [hcs2, hce2])
  rw [hcs2] at hmono
  omega

/-- C7 witness: position `1` is drained by `exAfterEos` (window `[1, 3)`),
and after that drain and a `reset` it is no longer in the drained window. -/
theorem C7_witness :
    ¬ inDrainRange (run (exAfterEos.outstanding_completion_tokens).2
        [Op.reset]) 1 :=
  C7_drain_no_repeat exAfterEos [Op.reset] 1 (by decide)

/-- C8: construction from a one-dimensional token array of length `L` yields
active length `L`, current length `L`, a next-token window equal to the
original array, and capacity `ceil (L / 128) * 128`; in particular length
130 yields capacity 256 and length 128 yields capacity 128. -/
theorem C8_init_roundtrip :
    (∀ (cid : Int) (prompt : List Int) (ml : Option Int) (toks : List Int)
        (lp : Int) (echo : Bool) (js : Option String),
      (TextContext.init cid prompt ml toks lp echo js).active_length
        = (toks.length : Int) ∧
      (TextContext.init cid prompt ml toks lp echo js).current_length
        = (toks.length : Int) ∧
      (TextContext.init cid prompt ml toks lp echo js).next_tokens = toks ∧
      (TextContext.init cid prompt ml toks lp echo js).size
        = ((toks.length + CHUNK_SIZE - 1) / CHUNK_SIZE) * CHUNK_SIZE) ∧
    (TextContext.init 0 [] none (List.replicate 130 1) 0 false none).size
      = 256 ∧
    (TextContext.init 0 [] none (List.replicate 128 1) 0 false none).size
      = 128 := by
  refine ⟨?_, by decide, by decide⟩
  intro cid prompt ml toks lp echo js
  refine ⟨?_, rfl, ?_, rfl⟩
  · unfold TextContext.active_length TextContext.init
    dsimp only
    omega
  · have hle := le_ceil_mul toks.length CHUNK_SIZE (by decide)
    unfold TextContext.next_tokens pySlice pyIx TextContext.init
    dsimp only
    rw [if_neg (show ¬ ((toks.length : Int)) < 0 by omega),
      if_neg (show ¬ (0 : Int) < 0 by omega)]
    simp only [List.length_append, List.length_replicate, Int.toNat_zero,
      Nat.zero_min, List.drop_zero, Int.toNat_natCast]
    rw [Nat.min_eq_left (by omega)]
    exact List.take_left' rfl

/-- C9: after any call to the multimodal `update` (the first one included),
the auxiliary-input collection `pixel_values` is empty, so the auxiliary
inputs are consumed at most once and never re-sent on later generation
iterations; the underlying text context is updated exactly as by the
inherited `update`. -/
theorem C9_pixel_values_cleared (c : TextAndVisionContext) (t : Int)
    (lp : Option LogProbabilities) (eos : Bool) :
    (TextAndVisionContext.update c t lp eos).pixel_values = [] ∧
    (TextAndVisionContext.update c t lp eos).toTextContext
      = c.toTextContext.update t lp eos :=
  ⟨rfl, rfl⟩

/-- C10: `outstanding_completion_tokens` mutates only
`completion_start_idx` (set to `completion_end_idx`) and the ledger, from
which exactly the entries at the drained positions
`[completion_start_idx, completion_end_idx)` are removed; every other field
of the context is unchanged. -/
theorem C10_drain_frame (c : TextContext) :
    (c.outstanding_completion_tokens).2.completion_start_idx
      = c.completion_end_idx ∧
    (c.outstanding_completion_tokens).2.log_probabilities_data
      = c.log_probabilities_data.filter
          (fun kv => !(decide (c.completion_start_idx ≤ kv.1 ∧
            kv.1 < c.completion_end_idx))) ∧
    (∀ k : Int, k ∈ intRange c.completion_start_idx c.completion_end_idx ↔
      c.completion_start_idx ≤ k ∧ k < c.completion_end_idx) ∧
    (c.outstanding_completion_tokens).2.start_idx = c.start_idx ∧
    (c.outstanding_completion_tokens).2.active_idx = c.active_idx ∧
    (c.outstanding_completion_tokens).2.end_idx = c.end_idx ∧
    (c.outstanding_completion_tokens).2.completion_end_idx
      = c.completion_end_idx ∧
    (c.outstanding_completion_tokens).2.size = c.size ∧
    (c.outstanding_completion_tokens).2.tokens = c.tokens ∧
    (c.outstanding_completion_tokens).2.matcher = c.matcher ∧
    (c.outstanding_completion_tokens).2.is_initial_prompt
      = c.is_initial_prompt :=
  ⟨rfl, drain_ledger c, fun k => mem_intRange _ _ k, rfl, rfl, rfl, rfl, rfl,
    rfl, rfl, rfl⟩
